import Mathlib

/-!
Shallow embedding of the `parking_lot` repository's core storage layer
(`storage/parking_lot_storage.go`) together with its database schema
(`migrations/migration.sql`).

The Go program keeps all state in four PostgreSQL tables
(`parking_lots`, `parking_spaces`, `parked_vehicles`,
`parking_transactions`); every storage operation first takes a single
process-wide mutex (`s.mu`), so each exported operation executes
atomically with respect to the others and concurrent executions are
equivalent to their sequential composition in some order.  We model the
database as explicit lists of rows, timestamps as integer seconds since
the epoch, SQL `NULL` timestamps as `Option`, and each storage method as
a function from the database state (plus the clock readings the method
takes via `NOW()` / `time.Now()`) to a result (`Except` mirrors Go's
`(value, error)` returns) paired with the successor state.
-/

deriving instance DecidableEq for Except

namespace ParkingLot

/-- One row of the `parking_spaces` table: `id SERIAL PRIMARY KEY`,
`lot_id`, `number`, `occupied BOOLEAN DEFAULT false`,
`in_maintenance BOOLEAN DEFAULT false`, `entry_time TIMESTAMP`
(nullable, hence `Option`). -/
structure SpaceRow where
  id : Nat
  lotId : Nat
  number : Nat
  occupied : Bool
  inMaintenance : Bool
  entryTime : Option Int
  deriving DecidableEq

/-- One row of the `parking_lots` table: `id SERIAL`, `total_spaces INT`
(a Go `int`, so it can be zero or negative). -/
structure LotRow where
  id : Nat
  totalSpaces : Int
  deriving DecidableEq

/-- One row of the `parked_vehicles` table: `id SERIAL`,
`parking_lot_id`, `slot`, `license_plate`, `entry_time`. -/
structure VehicleRow where
  id : Nat
  parkingLotId : Nat
  slot : Nat
  licensePlate : String
  entryTime : Int
  deriving DecidableEq

/-- One row of the `parking_transactions` table:
`lot_id`, `vehicle_license_plate`, `fee`, `entry_time`, `exit_time`. -/
structure TxRow where
  lotId : Nat
  plate : String
  fee : Int
  entryTime : Int
  exitTime : Int
  deriving DecidableEq

/-- The database state: the four tables plus the `SERIAL` counters that
assign the next fresh primary key for `parking_lots`, `parking_spaces`
and `parked_vehicles`. -/
structure DB where
  lots : List LotRow
  spaces : List SpaceRow
  vehicles : List VehicleRow
  txs : List TxRow
  nextLotId : Nat
  nextSpaceId : Nat
  nextVehicleId : Nat
  deriving DecidableEq

/-- The Go constant `ParkingFeeperHour = 10`. -/
def ParkingFeeperHour : Int := 10

/-- In-memory `ParkingSpace` struct as returned by `CreateParkingLot`
(only `Number` is set; the other fields keep their Go zero values). -/
structure ParkingSpace where
  Number : Nat
  InMaintenance : Bool
  Occupied : Bool
  EntryTime : Option Int
  deriving DecidableEq

/-- In-memory `ParkingLot` struct returned by `CreateParkingLot`. -/
structure GoLot where
  ID : Nat
  TotalSpaces : Int
  Spaces : List ParkingSpace
  deriving DecidableEq

/-- `SELECT total_spaces FROM parking_lots WHERE id = $1` (used as the
existence check at the top of `ParkVehicle`, `ViewParkingLotStatus`,
`ToggleMaintenance` and `GetReports`). -/
def findLot (s : DB) (parkingLotID : Nat) : Option LotRow :=
  s.lots.find? fun l => l.id == parkingLotID

/-- Rows satisfying the `WHERE` clause of the slot-selection query in
`ParkVehicle`: `lot_id = $1 AND NOT occupied AND NOT in_maintenance`. -/
def eligibleSpaces (s : DB) (parkingLotID : Nat) : List SpaceRow :=
  s.spaces.filter fun sp => sp.lotId == parkingLotID && !sp.occupied && !sp.inMaintenance

/-- `ORDER BY number LIMIT 1`: a row of minimal `number` (the earliest
such row; `number` is unique per lot in any well-formed state). -/
def minByNumber : List SpaceRow → Option SpaceRow
  | [] => none
  | r :: rs =>
    match minByNumber rs with
    | none => some r
    | some m => if r.number ≤ m.number then some r else some m

/-- `ParkVehicle(parkingLotID, LicensePlate)`: under the global mutex,
(1) check the lot exists, else error `"parking lot not found"`;
(2) select the lowest-numbered free, non-maintenance space, else error
`"nearest available slot not found"`;
(3) `UPDATE parking_spaces SET occupied = true, entry_time = NOW()
WHERE id = ...` and (4) insert the `parked_vehicles` row; return the
claimed slot number.  `now` is the clock reading used by `NOW()`. -/
def parkVehicle (s : DB) (parkingLotID : Nat) (licensePlate : String) (now : Int) :
    Except String Nat × DB :=
  match findLot s parkingLotID with
  | none => (.error "parking lot not found", s)
  | some _ =>
    match minByNumber (eligibleSpaces s parkingLotID) with
    | none => (.error "nearest available slot not found", s)
    | some m =>
      (.ok m.number,
        { s with
          spaces := s.spaces.map fun r =>
            if r.id == m.id then { r with occupied := true, entryTime := some now } else r
          vehicles := s.vehicles ++
            [⟨s.nextVehicleId, parkingLotID, m.number, licensePlate, now⟩]
          nextVehicleId := s.nextVehicleId + 1 })

/-- The lookup query of `UnparkVehicle`:
`SELECT parking_spaces.id FROM parked_vehicles LEFT JOIN parking_spaces
ON parking_spaces.lot_id = parked_vehicles.parking_lot_id AND
parked_vehicles.slot = parking_spaces.number WHERE
parking_spaces.lot_id = $1 AND parked_vehicles.license_plate = $2 AND
occupied = TRUE` (the `WHERE` on `parking_spaces.lot_id` discards the
null-extended rows, so the join is effectively inner). -/
def findOccupant (s : DB) (parkingLotID : Nat) (licensePlate : String) : Option SpaceRow :=
  s.vehicles.findSome? fun v =>
    s.spaces.find? fun sp =>
      sp.lotId == v.parkingLotId && v.slot == sp.number &&
      sp.lotId == parkingLotID && v.licensePlate == licensePlate && sp.occupied

/-- `int(math.Ceil(parkingTime.Hours())) * 10` with the elapsed time
`d` in seconds: the ceiling of `d / 3600` hours times the flat rate. -/
def parkingFee (d : Int) : Int := ⌈(d : ℚ) / 3600⌉ * 10

/-- `UnparkVehicle(parkingLotID, LicensePlate)`: under the global mutex,
(1) find the occupied space whose active occupant matches the plate,
else error `"required parked vehicle lot not found"`;
(2) `UPDATE parking_spaces SET occupied = false WHERE id = ...
RETURNING entry_time` (only `occupied` is written; `entry_time` is
merely read back).  A `NULL` entry time fails the `Scan` after the
update has executed (error `"failed to unpark vehicle"`);
(3) compute the fee from `time.Now() - entryTime` and insert the
`parking_transactions` row; the `parked_vehicles` row is not deleted. -/
def unparkVehicle (s : DB) (parkingLotID : Nat) (licensePlate : String) (now : Int) :
    Except String Int × DB :=
  match findOccupant s parkingLotID licensePlate with
  | none => (.error "required parked vehicle lot not found", s)
  | some sp =>
    let s1 : DB :=
      { s with
        spaces := s.spaces.map fun r =>
          if r.id == sp.id then { r with occupied := false } else r }
    match sp.entryTime with
    | none => (.error "failed to unpark vehicle", s1)
    | some e =>
      let fee := parkingFee (now - e)
      (.ok fee, { s1 with txs := s1.txs ++ [⟨parkingLotID, licensePlate, fee, e, now⟩] })

/-- `CreateParkingLot(totalSpaces)`: insert the `parking_lots` row, then
loop `for i := 1; i <= totalSpaces; i++` inserting one `parking_spaces`
row per iteration (nothing at all when `totalSpaces ≤ 0` — there is no
validation of the argument); return the in-memory `ParkingLot`. -/
def createParkingLot (s : DB) (totalSpaces : Int) : Except String GoLot × DB :=
  let lotId := s.nextLotId
  let newRows : List SpaceRow :=
    (List.range totalSpaces.toNat).map fun i =>
      ⟨s.nextSpaceId + i, lotId, i + 1, false, false, none⟩
  (.ok ⟨lotId, totalSpaces,
      (List.range totalSpaces.toNat).map fun i => ⟨i + 1, false, false, none⟩⟩,
    { s with
      lots := s.lots ++ [⟨lotId, totalSpaces⟩]
      spaces := s.spaces ++ newRows
      nextLotId := lotId + 1
      nextSpaceId := s.nextSpaceId + totalSpaces.toNat })

/-- `ToggleMaintenance(parkingLotID, slotNumber, inMaintenance)`: check
the lot exists (error `"parking lot not found"` otherwise), then
`UPDATE parking_spaces SET in_maintenance = $1 WHERE lot_id = $2 AND
number = $3`.  The update touches every row matching the `WHERE` clause
(possibly none); the affected row count is never inspected. -/
def toggleMaintenance (s : DB) (parkingLotID slotNumber : Nat) (inMaintenance : Bool) :
    Except String Unit × DB :=
  match findLot s parkingLotID with
  | none => (.error "parking lot not found", s)
  | some _ =>
    (.ok (),
      { s with
        spaces := s.spaces.map fun r =>
          if r.lotId == parkingLotID && r.number == slotNumber then
            { r with inMaintenance := inMaintenance }
          else r })

/-- One row of the `GetReports` result set. -/
structure DailyStats where
  day : Int
  totalVehicles : Nat
  totalParkingTime : ℚ
  totalFee : Int
  deriving DecidableEq

/-- `DATE(exit_time)`: the calendar-day index of a transaction's exit
timestamp (floor division of epoch seconds by 86400; Int `/` is
Euclidean division, which is floor division for a positive divisor). -/
def txDay (t : TxRow) : Int := t.exitTime / 86400

/-- Insert a day into an ascending duplicate-free list of days, keeping
it ascending and duplicate-free (the `GROUP BY day ORDER BY day` of
`GetReports`). -/
def insertDay (d : Int) : List Int → List Int
  | [] => [d]
  | x :: xs =>
    if d < x then d :: x :: xs
    else if d == x then x :: xs
    else x :: insertDay d xs

/-- The distinct days of a list, in ascending order. -/
def groupDays (l : List Int) : List Int := l.foldr insertDay []

/-- The aggregates `COUNT(*)`,
`SUM(EXTRACT(EPOCH FROM (exit_time - entry_time)) / 3600)` and
`SUM(fee)` over the transactions of one day. -/
def statsForDay (ts : List TxRow) (d : Int) : DailyStats :=
  let dts := ts.filter fun t => txDay t == d
  { day := d
    totalVehicles := dts.length
    totalParkingTime := (dts.map fun t => ((t.exitTime - t.entryTime : Int) : ℚ) / 3600).sum
    totalFee := (dts.map TxRow.fee).sum }

/-- `GetReports(parkingLotID)`: check the lot exists (error
`"parking lot not found"` otherwise), then group the lot's transactions
by `DATE(exit_time)`, aggregating per day, ordered by day ascending. -/
def getReports (s : DB) (parkingLotID : Nat) : Except String (List DailyStats) :=
  match findLot s parkingLotID with
  | none => .error "parking lot not found"
  | some _ =>
    let ts := s.txs.filter fun t => t.lotId == parkingLotID
    .ok ((groupDays (ts.map txDay)).map (statsForDay ts))

/-- Well-formedness of a database state, as guaranteed by the schema:
`parking_spaces.id` is a primary key, `number` is unique within a lot,
`SERIAL` counters dominate every existing key, `parking_lots.id` is a
primary key, and `parking_spaces.lot_id` is a foreign key into
`parking_lots`. -/
def DB.WF (s : DB) : Prop :=
  s.spaces.Pairwise (fun a b => a.id ≠ b.id) ∧
  s.spaces.Pairwise (fun a b => a.lotId = b.lotId → a.number ≠ b.number) ∧
  (∀ sp ∈ s.spaces, sp.id < s.nextSpaceId) ∧
  s.lots.Pairwise (fun a b => a.id ≠ b.id) ∧
  (∀ l ∈ s.lots, l.id < s.nextLotId) ∧
  (∀ sp ∈ s.spaces, ∃ l ∈ s.lots, sp.lotId = l.id)

instance (s : DB) : Decidable s.WF := by
  unfold DB.WF; infer_instance

/-- An empty database whose `SERIAL` counters start at 1. -/
def dbEmpty : DB := ⟨[], [], [], [], 1, 1, 1⟩

/-- Iterated allocation: `parkSeq lot pl tm k s` runs `ParkVehicle` `k`
times in a row (call `j` using plate `pl j` and clock `tm j`), stopping
with `none` as soon as one call returns an error. -/
def parkSeq (lot : Nat) (pl : Nat → String) (tm : Nat → Int) : Nat → DB → Option DB
  | 0, s => some s
  | Nat.succ k, s =>
    match parkVehicle s lot (pl k) (tm k) with
    | (Except.ok _, s') => parkSeq lot pl tm k s'
    | (Except.error _, _) => none

/-! ### Helper lemmas about the embedded operations -/

theorem mem_eligibleSpaces {s : DB} {lot : Nat} {sp : SpaceRow} :
    sp ∈ eligibleSpaces s lot ↔
      sp ∈ s.spaces ∧ sp.lotId = lot ∧ sp.occupied = false ∧ sp.inMaintenance = false := by
  simp [eligibleSpaces, List.mem_filter, Bool.and_eq_true, Bool.not_eq_true', beq_iff_eq,
    and_assoc]

theorem minByNumber_eq_none {l : List SpaceRow} : minByNumber l = none ↔ l = [] := by
  cases l with
  | nil => simp [minByNumber]
  | cons r rs =>
    simp only [minByNumber]
    cases hrs : minByNumber rs with
    | none => simp
    | some m =>
      by_cases hle : r.number ≤ m.number <;> simp [hle]

theorem minByNumber_mem : ∀ {l : List SpaceRow} {m : SpaceRow},
    minByNumber l = some m → m ∈ l := by
  intro l
  induction l with
  | nil => intro m h; simp [minByNumber] at h
  | cons r rs ih =>
    intro m h
    simp only [minByNumber] at h
    cases hrs : minByNumber rs with
    | none =>
      rw [hrs] at h
      injection h with h
      exact h ▸ List.mem_cons_self r rs
    | some m' =>
      rw [hrs] at h
      dsimp only at h
      by_cases hle : r.number ≤ m'.number
      · rw [if_pos hle] at h
        injection h with h
        exact h ▸ List.mem_cons_self r rs
      · rw [if_neg hle] at h
        injection h with h
        exact List.mem_cons_of_mem r (h ▸ ih hrs)

theorem minByNumber_le : ∀ {l : List SpaceRow} {m : SpaceRow},
    minByNumber l = some m → ∀ x ∈ l, m.number ≤ x.number := by
  intro l
  induction l with
  | nil => intro m h; simp [minByNumber] at h
  | cons r rs ih =>
    intro m h x hx
    simp only [minByNumber] at h
    cases hrs : minByNumber rs with
    | none =>
      rw [hrs] at h
      injection h with h
      subst h
      rcases List.mem_cons.mp hx with hx | hx
      · exact hx ▸ le_refl _
      · exact absurd (minByNumber_eq_none.mp hrs ▸ hx) (List.not_mem_nil x)
    | some m' =>
      rw [hrs] at h
      dsimp only at h
      by_cases hle : r.number ≤ m'.number
      · rw [if_pos hle] at h
        injection h with h
        subst h
        rcases List.mem_cons.mp hx with hx | hx
        · exact hx ▸ le_refl _
        · exact le_trans hle (ih hrs x hx)
      · rw [if_neg hle] at h
        injection h with h
        subst h
        rcases List.mem_cons.mp hx with hx | hx
        · exact hx ▸ le_of_lt (lt_of_not_le hle)
        · exact ih hrs x hx

theorem minByNumber_isSome {l : List SpaceRow} (h : l ≠ []) :
    ∃ m, minByNumber l = some m := by
  cases hm : minByNumber l with
  | none => exact absurd (minByNumber_eq_none.mp hm) h
  | some m => exact ⟨m, rfl⟩

theorem findLot_some_of_mem {s : DB} {lot : Nat} {l : LotRow}
    (hl : l ∈ s.lots) (hid : l.id = lot) : ∃ L, findLot s lot = some L := by
  have : (s.lots.find? fun l => l.id == lot).isSome := by
    rw [List.find?_isSome]
    exact ⟨l, hl, by simp [hid]⟩
  cases h : s.lots.find? fun l => l.id == lot with
  | none => rw [h] at this; simp at this
  | some L => exact ⟨L, h⟩

theorem findLot_eq_none {s : DB} {lot : Nat}
    (h : ∀ l ∈ s.lots, l.id ≠ lot) : findLot s lot = none := by
  rw [findLot, List.find?_eq_none]
  intro l hl
  simp [h l hl]

/-- Inversion for a successful `ParkVehicle`. -/
theorem parkVehicle_ok {s : DB} {lot : Nat} {p : String} {t : Int} {n : Nat} {s' : DB}
    (h : parkVehicle s lot p t = (.ok n, s')) :
    ∃ m, minByNumber (eligibleSpaces s lot) = some m ∧ n = m.number ∧
      s' = { s with
              spaces := s.spaces.map fun r =>
                if r.id == m.id then { r with occupied := true, entryTime := some t } else r
              vehicles := s.vehicles ++ [⟨s.nextVehicleId, lot, m.number, p, t⟩]
              nextVehicleId := s.nextVehicleId + 1 } := by
  unfold parkVehicle at h
  cases hlot : findLot s lot with
  | none => rw [hlot] at h; simp at h
  | some L =>
    rw [hlot] at h
    cases hmin : minByNumber (eligibleSpaces s lot) with
    | none => rw [hmin] at h; simp at h
    | some m =>
      rw [hmin] at h
      refine ⟨m, rfl, ?_, ?_⟩
      · have := congrArg Prod.fst h
        simp only [Except.ok.injEq] at this
        exact this.symm
      · exact (congrArg Prod.snd h).symm

/-- `ParkVehicle` when the slot-selection succeeds. -/
theorem parkVehicle_eq {s : DB} {lot : Nat} {L : LotRow} {m : SpaceRow}
    (hlot : findLot s lot = some L)
    (hmin : minByNumber (eligibleSpaces s lot) = some m) (p : String) (t : Int) :
    parkVehicle s lot p t =
      (.ok m.number,
        { s with
          spaces := s.spaces.map fun r =>
            if r.id == m.id then { r with occupied := true, entryTime := some t } else r
          vehicles := s.vehicles ++ [⟨s.nextVehicleId, lot, m.number, p, t⟩]
          nextVehicleId := s.nextVehicleId + 1 }) := by
  unfold parkVehicle
  rw [hlot, hmin]

/-- `ParkVehicle` when the lot is missing. -/
theorem parkVehicle_noLot {s : DB} {lot : Nat} (p : String) (t : Int)
    (hlot : findLot s lot = none) :
    parkVehicle s lot p t = (.error "parking lot not found", s) := by
  unfold parkVehicle
  rw [hlot]

/-- `ParkVehicle` when no eligible space exists. -/
theorem parkVehicle_noSpace {s : DB} {lot : Nat} {L : LotRow} (p : String) (t : Int)
    (hlot : findLot s lot = some L)
    (hmin : minByNumber (eligibleSpaces s lot) = none) :
    parkVehicle s lot p t = (.error "nearest available slot not found", s) := by
  unfold parkVehicle
  rw [hlot, hmin]

theorem map_id_of_eq {α : Type} {l : List α} {f : α → α} (h : ∀ a ∈ l, f a = a) :
    l.map f = l := by
  induction l with
  | nil => rfl
  | cons x xs ih =>
    rw [List.map_cons, h x (List.mem_cons_self x xs),
      ih fun a ha => h a (List.mem_cons_of_mem x ha)]

theorem forall₂_map_self {α β : Type} {l : List α} {f : α → β} {P : α → β → Prop}
    (h : ∀ a ∈ l, P a (f a)) : List.Forall₂ P l (l.map f) := by
  induction l with
  | nil => simp
  | cons x xs ih =>
    exact List.Forall₂.cons (h x (List.mem_cons_self x xs))
      (ih fun a ha => h a (List.mem_cons_of_mem x ha))

/-- The row found by the `UnparkVehicle` lookup is an occupied space of
the requested lot. -/
theorem findOccupant_mem {s : DB} {lot : Nat} {plate : String} {sp : SpaceRow}
    (h : findOccupant s lot plate = some sp) :
    sp ∈ s.spaces ∧ sp.lotId = lot ∧ sp.occupied = true := by
  rw [findOccupant] at h
  obtain ⟨v, hv, hfind⟩ := List.exists_of_findSome?_eq_some h
  have hmem := List.mem_of_find?_eq_some hfind
  have hpred := List.find?_some hfind
  simp only [Bool.and_eq_true, beq_iff_eq] at hpred
  exact ⟨hmem, hpred.1.1.2, hpred.2⟩

/-- Inversion for a successful `UnparkVehicle`. -/
theorem unparkVehicle_ok {s : DB} {lot : Nat} {plate : String} {now fee : Int} {s' : DB}
    (h : unparkVehicle s lot plate now = (.ok fee, s')) :
    ∃ sp e, findOccupant s lot plate = some sp ∧ sp.entryTime = some e ∧
      fee = parkingFee (now - e) ∧
      s' = { s with
              spaces := s.spaces.map fun r =>
                if r.id == sp.id then { r with occupied := false } else r
              txs := s.txs ++ [⟨lot, plate, parkingFee (now - e), e, now⟩] } := by
  unfold unparkVehicle at h
  cases hocc : findOccupant s lot plate with
  | none => rw [hocc] at h; simp at h
  | some sp =>
    rw [hocc] at h
    dsimp only at h
    cases he : sp.entryTime with
    | none => rw [he] at h; simp at h
    | some e =>
      rw [he] at h
      dsimp only at h
      refine ⟨sp, e, rfl, he, ?_, ?_⟩
      · have := congrArg Prod.fst h
        simp only [Except.ok.injEq] at this
        exact this.symm
      · exact (congrArg Prod.snd h).symm

/-- Charging floor: any positive elapsed time is billed at least one
full hour. -/
theorem parkingFee_pos {d : Int} (hd : 0 < d) : ParkingFeeperHour ≤ parkingFee d := by
  unfold parkingFee ParkingFeeperHour
  have hq : ((0 : ℤ) : ℚ) < (d : ℚ) / 3600 := by
    have : (0 : ℚ) < (d : ℚ) := by exact_mod_cast hd
    positivity
  have h1 : (0 : ℤ) < ⌈(d : ℚ) / 3600⌉ := Int.lt_ceil.mpr hq
  have h2 : (1 : ℤ) ≤ ⌈(d : ℚ) / 3600⌉ := h1
  calc (10 : ℤ) = 1 * 10 := by norm_num
    _ ≤ ⌈(d : ℚ) / 3600⌉ * 10 := by
        exact mul_le_mul_of_nonneg_right h2 (by norm_num)

theorem parkingFee_3660 : parkingFee 3660 = 20 := by
  unfold parkingFee
  have : ⌈((3660 : ℤ) : ℚ) / 3600⌉ = 2 := by
    rw [Int.ceil_eq_iff]
    constructor <;> norm_num
  rw [this]
  norm_num

theorem parkingFee_3600 : parkingFee 3600 = 10 := by
  unfold parkingFee
  have : ⌈((3600 : ℤ) : ℚ) / 3600⌉ = 1 := by
    rw [Int.ceil_eq_iff]
    constructor <;> norm_num
  rw [this]
  norm_num

theorem parkingFee_1 : parkingFee 1 = 10 := by
  unfold parkingFee
  have : ⌈((1 : ℤ) : ℚ) / 3600⌉ = 1 := by
    rw [Int.ceil_eq_iff]
    constructor <;> norm_num
  rw [this]
  norm_num

/-! ### Concrete states used by witnesses and counterexamples -/

/-- One lot with one occupied space (entry time 100) whose occupant has
plate `"AAA"`. -/
def db7 : DB := ⟨[⟨1, 1⟩], [⟨1, 1, 1, true, false, some 100⟩], [⟨1, 1, 1, "AAA", 100⟩], [], 2, 2, 2⟩

/-- One lot with one free space and no parked vehicles. -/
def db6 : DB := ⟨[⟨1, 1⟩], [⟨1, 1, 1, false, false, none⟩], [], [], 2, 2, 1⟩

/-! ### C2 -/

/-- C2: every successful `UnparkVehicle` charges
`ceil(elapsed seconds / 3600) * hourly rate`, where the elapsed time is
the exit-clock reading minus the recorded entry time of the very record
being closed — the occupied space of the lot that the lookup matched to
the given plate (`findOccupant`): partial hours round up, any positive
duration is billed at least one hour, 61 minutes cost 2 × rate, exactly
60 minutes cost 1 × rate, one second costs 1 × rate. -/
theorem close_fee_is_ceil_hours_times_rate (s : DB) (lot : Nat) (plate : String)
    (now fee : Int) (s' : DB)
    (h : unparkVehicle s lot plate now = (.ok fee, s')) :
    ∃ sp, findOccupant s lot plate = some sp ∧
      sp ∈ s.spaces ∧ sp.lotId = lot ∧ sp.occupied = true ∧
      ∃ e, sp.entryTime = some e ∧
        fee = ⌈((now - e : Int) : ℚ) / 3600⌉ * ParkingFeeperHour ∧
        (0 < now - e → ParkingFeeperHour ≤ fee) ∧
        (now - e = 3660 → fee = 2 * ParkingFeeperHour) ∧
        (now - e = 3600 → fee = 1 * ParkingFeeperHour) ∧
        (now - e = 1 → fee = 1 * ParkingFeeperHour) := by
  obtain ⟨sp, e, hocc, he, hfee, _⟩ := unparkVehicle_ok h
  obtain ⟨hmem, hlot, hoccu⟩ := findOccupant_mem hocc
  refine ⟨sp, hocc, hmem, hlot, hoccu, e, he, ?_, ?_, ?_, ?_, ?_⟩
  · rw [hfee]; rfl
  · intro hpos
    rw [hfee]
    exact parkingFee_pos hpos
  · intro hd
    rw [hfee, hd, parkingFee_3660]
    norm_num [ParkingFeeperHour]
  · intro hd
    rw [hfee, hd, parkingFee_3600]
    norm_num [ParkingFeeperHour]
  · intro hd
    rw [hfee, hd, parkingFee_1]
    norm_num [ParkingFeeperHour]

theorem close_fee_is_ceil_hours_times_rate_witness :
    ∃ sp, findOccupant db7 1 "AAA" = some sp ∧
      sp ∈ db7.spaces ∧ sp.lotId = 1 ∧ sp.occupied = true ∧
      ∃ e, sp.entryTime = some e ∧
        parkingFee (7200 - 100) = ⌈((7200 - e : Int) : ℚ) / 3600⌉ * ParkingFeeperHour ∧
        (0 < 7200 - e → ParkingFeeperHour ≤ parkingFee (7200 - 100)) ∧
        (7200 - e = 3660 → parkingFee (7200 - 100) = 2 * ParkingFeeperHour) ∧
        (7200 - e = 3600 → parkingFee (7200 - 100) = 1 * ParkingFeeperHour) ∧
        (7200 - e = 1 → parkingFee (7200 - 100) = 1 * ParkingFeeperHour) :=
  close_fee_is_ceil_hours_times_rate db7 1 "AAA" 7200 (parkingFee (7200 - 100))
    (unparkVehicle db7 1 "AAA" 7200).2 rfl

/-! ### C5 -/

/-- C5 counterexample: `CreateParkingLot 0` does not fail with an
invalid-argument error — it succeeds and creates a lot with zero space
records. -/
theorem create_lot_zero_spaces_succeeds :
    (createParkingLot dbEmpty 0).1 = .ok ⟨1, 0, []⟩ ∧
    (createParkingLot dbEmpty 0).2 = ⟨[⟨1, 0⟩], [], [], [], 2, 1, 1⟩ := by
  constructor <;> rfl

/-- C5 amended: `CreateParkingLot` never validates its argument: for
every `totalSpaces` it succeeds, appending exactly
`max totalSpaces 0` space rows numbered `1..totalSpaces`, all free and
not in maintenance; for `totalSpaces ≤ 0` no space row is created. -/
theorem create_lot_no_validation (s : DB) (totalSpaces : Int) :
    (createParkingLot s totalSpaces).1 =
      .ok ⟨s.nextLotId, totalSpaces,
        (List.range totalSpaces.toNat).map fun i => ⟨i + 1, false, false, none⟩⟩ ∧
    (createParkingLot s totalSpaces).2.spaces =
      s.spaces ++ ((List.range totalSpaces.toNat).map fun i =>
        ⟨s.nextSpaceId + i, s.nextLotId, i + 1, false, false, none⟩) ∧
    (totalSpaces ≤ 0 → (createParkingLot s totalSpaces).2.spaces = s.spaces) ∧
    (0 ≤ totalSpaces →
      (createParkingLot s totalSpaces).2.spaces.length =
        s.spaces.length + totalSpaces.toNat) := by
  refine ⟨rfl, rfl, ?_, ?_⟩
  · intro hle
    show s.spaces ++ _ = s.spaces
    rw [Int.toNat_of_nonpos hle]
    simp
  · intro _
    show (s.spaces ++ _).length = _
    simp

theorem create_lot_no_validation_witness :
    (createParkingLot dbEmpty (-3)).1 =
      .ok ⟨dbEmpty.nextLotId, -3,
        (List.range (-3 : Int).toNat).map fun i => ⟨i + 1, false, false, none⟩⟩ ∧
    (createParkingLot dbEmpty (-3)).2.spaces =
      dbEmpty.spaces ++ ((List.range (-3 : Int).toNat).map fun i =>
        ⟨dbEmpty.nextSpaceId + i, dbEmpty.nextLotId, i + 1, false, false, none⟩) ∧
    ((-3 : Int) ≤ 0 → (createParkingLot dbEmpty (-3)).2.spaces = dbEmpty.spaces) ∧
    ((0 : Int) ≤ -3 →
      (createParkingLot dbEmpty (-3)).2.spaces.length =
        dbEmpty.spaces.length + (-3 : Int).toNat) :=
  create_lot_no_validation dbEmpty (-3)

/-! ### C6 -/

/-- C6: `UnparkVehicle` for a plate with no active occupied occupancy
record in the lot fails with the occupant-not-found error and returns
the state completely unchanged (no space modified, no transaction
written). -/
theorem close_unknown_plate_errors_and_preserves_state (s : DB) (lot : Nat)
    (plate : String) (now : Int)
    (h : ∀ v ∈ s.vehicles, ∀ sp ∈ s.spaces,
      ¬(sp.lotId = v.parkingLotId ∧ v.slot = sp.number ∧ sp.lotId = lot ∧
        v.licensePlate = plate ∧ sp.occupied = true)) :
    unparkVehicle s lot plate now = (.error "required parked vehicle lot not found", s) := by
  have hocc : findOccupant s lot plate = none := by
    rw [findOccupant, List.findSome?_eq_none_iff]
    intro v hv
    rw [List.find?_eq_none]
    intro sp hsp hc
    apply h v hv sp hsp
    simp only [Bool.and_eq_true, beq_iff_eq] at hc
    exact ⟨hc.1.1.1.1, hc.1.1.1.2, hc.1.1.2, hc.1.2, hc.2⟩
  unfold unparkVehicle
  rw [hocc]

theorem close_unknown_plate_errors_and_preserves_state_witness :
    (∀ v ∈ db6.vehicles, ∀ sp ∈ db6.spaces,
      ¬(sp.lotId = v.parkingLotId ∧ v.slot = sp.number ∧ sp.lotId = 1 ∧
        v.licensePlate = "ZZZ" ∧ sp.occupied = true)) ∧
    unparkVehicle db6 1 "ZZZ" 5 = (.error "required parked vehicle lot not found", db6) :=
  ⟨by decide, close_unknown_plate_errors_and_preserves_state db6 1 "ZZZ" 5 (by decide)⟩

/-! ### C7 -/

/-- C7 counterexample: a successful `UnparkVehicle` clears the space's
`occupied` flag but does NOT clear its `entry_time` — the stale entry
time `some 100` survives in the row, contradicting the claim that the
entry time is cleared. -/
theorem close_retains_entry_time_counterexample :
    (unparkVehicle db7 1 "AAA" 7200).1 = .ok (parkingFee (7200 - 100)) ∧
    (unparkVehicle db7 1 "AAA" 7200).2.spaces = [⟨1, 1, 1, false, false, some 100⟩] := by
  constructor <;> rfl

/-- C7 amended: a successful `UnparkVehicle` does not delete the space
and keeps its number; exactly its `occupied` flag is cleared, while its
`entry_time` is left as recorded (not cleared); `in_maintenance`, every
other attribute and every other space of the lot are unchanged, the
`parked_vehicles` table and the lots are untouched, and one transaction
row is appended. -/
theorem close_clears_only_occupied (s : DB) (lot : Nat) (plate : String)
    (now fee : Int) (s' : DB)
    (h : unparkVehicle s lot plate now = (.ok fee, s')) :
    ∃ sp, findOccupant s lot plate = some sp ∧
      List.Forall₂ (fun r r' =>
          r'.id = r.id ∧ r'.lotId = r.lotId ∧ r'.number = r.number ∧
          r'.inMaintenance = r.inMaintenance ∧ r'.entryTime = r.entryTime ∧
          (r.id ≠ sp.id → r'.occupied = r.occupied) ∧
          (r.id = sp.id → r'.occupied = false))
        s.spaces s'.spaces ∧
      s'.lots = s.lots ∧ s'.vehicles = s.vehicles ∧
      ∃ tx, s'.txs = s.txs ++ [tx] := by
  obtain ⟨sp, e, hocc, he, hfee, hs'⟩ := unparkVehicle_ok h
  refine ⟨sp, hocc, ?_, by rw [hs'], by rw [hs'], ⟨_, by rw [hs']⟩⟩
  rw [hs']
  apply forall₂_map_self
  intro r hr
  by_cases hid : r.id = sp.id
  · have : (r.id == sp.id) = true := by simp [hid]
    rw [this]
    exact ⟨rfl, rfl, rfl, rfl, rfl, fun hc => absurd hid hc, fun _ => rfl⟩
  · have : (r.id == sp.id) = false := by simp [hid]
    rw [this]
    exact ⟨rfl, rfl, rfl, rfl, rfl, fun _ => rfl, fun hc => absurd hc hid⟩

theorem close_clears_only_occupied_witness :
    ∃ sp, findOccupant db7 1 "AAA" = some sp ∧
      List.Forall₂ (fun r r' =>
          r'.id = r.id ∧ r'.lotId = r.lotId ∧ r'.number = r.number ∧
          r'.inMaintenance = r.inMaintenance ∧ r'.entryTime = r.entryTime ∧
          (r.id ≠ sp.id → r'.occupied = r.occupied) ∧
          (r.id = sp.id → r'.occupied = false))
        db7.spaces (unparkVehicle db7 1 "AAA" 7200).2.spaces ∧
      (unparkVehicle db7 1 "AAA" 7200).2.lots = db7.lots ∧
      (unparkVehicle db7 1 "AAA" 7200).2.vehicles = db7.vehicles ∧
      ∃ tx, (unparkVehicle db7 1 "AAA" 7200).2.txs = db7.txs ++ [tx] :=
  close_clears_only_occupied db7 1 "AAA" 7200 (parkingFee (7200 - 100))
    (unparkVehicle db7 1 "AAA" 7200).2 rfl

/-! ### C8 -/

/-- C8: for an existing lot, `ToggleMaintenance` sets `in_maintenance`
to the given flag on exactly the spaces of that lot with that number
and modifies nothing else — `occupied` and `entry_time` are neither
checked nor altered (an occupied space can be put in maintenance
without losing its occupant), the other tables are untouched — and it
fails with the lot-not-found error when the lot does not exist. -/
theorem toggle_maintenance_sets_flag_only (s : DB) (lot n : Nat) (flag : Bool)
    (hlot : ∃ l ∈ s.lots, l.id = lot) :
    (toggleMaintenance s lot n flag).1 = .ok () ∧
    (toggleMaintenance s lot n flag).2.lots = s.lots ∧
    (toggleMaintenance s lot n flag).2.vehicles = s.vehicles ∧
    (toggleMaintenance s lot n flag).2.txs = s.txs ∧
    List.Forall₂ (fun r r' =>
        r'.id = r.id ∧ r'.lotId = r.lotId ∧ r'.number = r.number ∧
        r'.occupied = r.occupied ∧ r'.entryTime = r.entryTime ∧
        r'.inMaintenance = if r.lotId = lot ∧ r.number = n then flag else r.inMaintenance)
      s.spaces (toggleMaintenance s lot n flag).2.spaces ∧
    ∀ badLot : Nat, (∀ l ∈ s.lots, l.id ≠ badLot) →
      toggleMaintenance s badLot n flag = (.error "parking lot not found", s) := by
  obtain ⟨l, hl, hid⟩ := hlot
  obtain ⟨L, hL⟩ := findLot_some_of_mem hl hid
  have htog : toggleMaintenance s lot n flag =
      (.ok (), { s with spaces := s.spaces.map fun r =>
        if r.lotId == lot && r.number == n then { r with inMaintenance := flag } else r }) := by
    unfold toggleMaintenance
    rw [hL]
  refine ⟨by rw [htog], by rw [htog], by rw [htog], by rw [htog], ?_, ?_⟩
  · rw [htog]
    apply forall₂_map_self
    intro r hr
    by_cases hc : r.lotId = lot ∧ r.number = n
    · have hb : (r.lotId == lot && r.number == n) = true := by simp [hc.1, hc.2]
      rw [hb]
      exact ⟨rfl, rfl, rfl, rfl, rfl, by simp [hc]⟩
    · have hb : (r.lotId == lot && r.number == n) = false := by
        rw [Bool.eq_false_iff]
        intro hb
        exact hc (by simpa [Bool.and_eq_true, beq_iff_eq] using hb)
      rw [hb]
      exact ⟨rfl, rfl, rfl, rfl, rfl, by simp [hc]⟩
  · intro badLot hbad
    unfold toggleMaintenance
    rw [findLot_eq_none hbad]

theorem toggle_maintenance_sets_flag_only_witness :
    (∃ l ∈ db7.lots, l.id = 1) ∧
    ((toggleMaintenance db7 1 1 true).1 = .ok () ∧
     (toggleMaintenance db7 1 1 true).2.lots = db7.lots ∧
     (toggleMaintenance db7 1 1 true).2.vehicles = db7.vehicles ∧
     (toggleMaintenance db7 1 1 true).2.txs = db7.txs ∧
     List.Forall₂ (fun r r' =>
         r'.id = r.id ∧ r'.lotId = r.lotId ∧ r'.number = r.number ∧
         r'.occupied = r.occupied ∧ r'.entryTime = r.entryTime ∧
         r'.inMaintenance = if r.lotId = 1 ∧ r.number = 1 then true else r.inMaintenance)
       db7.spaces (toggleMaintenance db7 1 1 true).2.spaces ∧
     ∀ badLot : Nat, (∀ l ∈ db7.lots, l.id ≠ badLot) →
       toggleMaintenance db7 badLot 1 true = (.error "parking lot not found", db7)) :=
  ⟨by decide, toggle_maintenance_sets_flag_only db7 1 1 true (by decide)⟩

/-! ### C10 -/

/-- C10: for an existing lot and a slot number matching no space of the
lot, `ToggleMaintenance` succeeds and changes nothing — the zero-row
`UPDATE` is never detected or reported. -/
theorem toggle_maintenance_unknown_slot_silent_noop (s : DB) (lot n : Nat) (flag : Bool)
    (hlot : ∃ l ∈ s.lots, l.id = lot)
    (hnone : ∀ sp ∈ s.spaces, ¬(sp.lotId = lot ∧ sp.number = n)) :
    toggleMaintenance s lot n flag = (.ok (), s) := by
  obtain ⟨l, hl, hid⟩ := hlot
  obtain ⟨L, hL⟩ := findLot_some_of_mem hl hid
  unfold toggleMaintenance
  rw [hL]
  have hmap : (s.spaces.map fun r =>
      if r.lotId == lot && r.number == n then { r with inMaintenance := flag } else r)
      = s.spaces := by
    apply map_id_of_eq
    intro r hr
    have hb : (r.lotId == lot && r.number == n) = false := by
      rw [Bool.eq_false_iff]
      intro hb
      exact hnone r hr (by simpa [Bool.and_eq_true, beq_iff_eq] using hb)
    rw [hb]
    rfl
  rw [hmap]

theorem toggle_maintenance_unknown_slot_silent_noop_witness :
    (∃ l ∈ db6.lots, l.id = 1) ∧
    (∀ sp ∈ db6.spaces, ¬(sp.lotId = 1 ∧ sp.number = 9)) ∧
    toggleMaintenance db6 1 9 true = (.ok (), db6) :=
  ⟨by decide, by decide,
    toggle_maintenance_unknown_slot_silent_noop db6 1 9 true (by decide) (by decide)⟩

/-! ### C3 -/

/-- C3: whenever the lot holds at least one free, non-maintenance
space, `ParkVehicle` claims the space with the lowest number among
those spaces — so a space in maintenance is never claimed, even if
free — setting its `occupied` flag and recording its entry time, and
opening the occupancy record. -/
theorem allocate_claims_lowest_eligible (s : DB) (lot : Nat) (plate : String) (t : Int)
    (hwf : s.WF) (sp₀ : SpaceRow) (h0 : sp₀ ∈ s.spaces) (h1 : sp₀.lotId = lot)
    (h2 : sp₀.occupied = false) (h3 : sp₀.inMaintenance = false) :
    ∃ m, m ∈ s.spaces ∧ m.lotId = lot ∧ m.occupied = false ∧ m.inMaintenance = false ∧
      (∀ x ∈ s.spaces, x.lotId = lot → x.occupied = false → x.inMaintenance = false →
        m.number ≤ x.number) ∧
      parkVehicle s lot plate t =
        (.ok m.number,
          { s with
            spaces := s.spaces.map fun r =>
              if r.id == m.id then { r with occupied := true, entryTime := some t } else r
            vehicles := s.vehicles ++ [⟨s.nextVehicleId, lot, m.number, plate, t⟩]
            nextVehicleId := s.nextVehicleId + 1 }) := by
  obtain ⟨-, -, -, -, -, hfk⟩ := hwf
  obtain ⟨l, hl, hlid⟩ := hfk sp₀ h0
  obtain ⟨L, hL⟩ := findLot_some_of_mem hl (hlid.symm.trans h1)
  have hsp₀ : sp₀ ∈ eligibleSpaces s lot := mem_eligibleSpaces.mpr ⟨h0, h1, h2, h3⟩
  obtain ⟨m, hm⟩ := minByNumber_isSome (l := eligibleSpaces s lot) (fun hnil => by
    rw [hnil] at hsp₀; exact (List.not_mem_nil sp₀) hsp₀)
  obtain ⟨hmmem, hmlot, hmocc, hmmaint⟩ := mem_eligibleSpaces.mp (minByNumber_mem hm)
  refine ⟨m, hmmem, hmlot, hmocc, hmmaint, ?_, parkVehicle_eq hL hm plate t⟩
  intro x hx hx1 hx2 hx3
  exact minByNumber_le hm x (mem_eligibleSpaces.mpr ⟨hx, hx1, hx2, hx3⟩)

theorem allocate_claims_lowest_eligible_witness :
    db6.WF ∧
    ∃ m, m ∈ db6.spaces ∧ m.lotId = 1 ∧ m.occupied = false ∧ m.inMaintenance = false ∧
      (∀ x ∈ db6.spaces, x.lotId = 1 → x.occupied = false → x.inMaintenance = false →
        m.number ≤ x.number) ∧
      parkVehicle db6 1 "B" 50 =
        (.ok m.number,
          { db6 with
            spaces := db6.spaces.map fun r =>
              if r.id == m.id then { r with occupied := true, entryTime := some 50 } else r
            vehicles := db6.vehicles ++ [⟨db6.nextVehicleId, 1, m.number, "B", 50⟩]
            nextVehicleId := db6.nextVehicleId + 1 }) :=
  ⟨by decide,
    allocate_claims_lowest_eligible db6 1 "B" 50 (by decide) ⟨1, 1, 1, false, false, none⟩
      (by decide) (by decide) (by decide) (by decide)⟩

/-! ### C1 -/

/-- How the eligible count evolves when one row (identified by its
primary key) is replaced by an ineligible row. -/
theorem filter_map_update_length {l : List SpaceRow} {m : SpaceRow}
    (p : SpaceRow → Bool) (g : SpaceRow → SpaceRow)
    (hpw : l.Pairwise fun a b => a.id ≠ b.id)
    (hm : m ∈ l) (hpm : p m = true) (hgm : p (g m) = false) :
    ((l.map fun r => if r.id == m.id then g r else r).filter p).length + 1
      = (l.filter p).length := by
  induction l with
  | nil => cases hm
  | cons x xs ih =>
    obtain ⟨hx, hxs⟩ := List.pairwise_cons.mp hpw
    rcases List.mem_cons.mp hm with rfl | hm'
    · have hmap : (xs.map fun r => if r.id == m.id then g r else r) = xs := by
        apply map_id_of_eq
        intro b hb
        have hb' : (b.id == m.id) = false := by
          have := hx b hb
          simp [Ne.symm this]
        rw [hb']
        rfl
      have hhead : (if m.id == m.id then g m else m) = g m := by simp
      rw [List.map_cons, hhead, hmap, List.filter_cons, List.filter_cons, hgm, hpm]
      simp
    · have hxm : (x.id == m.id) = false := by
        have := hx m hm'
        simp [this]
      have hhead : (if x.id == m.id then g x else x) = x := by
        rw [hxm]
        rfl
      rw [List.map_cons, hhead, List.filter_cons, List.filter_cons]
      have hrec := ih hxs hm'
      by_cases hpx : p x = true
      · rw [hpx]
        simp only [eq_self_iff_true, if_true, List.length_cons]
        omega
      · have hpx' : p x = false := by simpa using hpx
        rw [hpx']
        simpa using hrec

/-- A `ParkVehicle` success makes the claimed row ineligible and leaves
the rest of the world relevant to allocation untouched: the lot lookup
still succeeds, row keys are still distinct, and the eligible count
drops by exactly one. -/
theorem park_step {s : DB} {lot : Nat} {L : LotRow}
    (hids : s.spaces.Pairwise fun a b => a.id ≠ b.id)
    (hL : findLot s lot = some L) {k : Nat}
    (hlen : (eligibleSpaces s lot).length = k + 1) (p : String) (t : Int) :
    ∃ n s', parkVehicle s lot p t = (.ok n, s') ∧
      s'.lots = s.lots ∧
      (s'.spaces.Pairwise fun a b => a.id ≠ b.id) ∧
      (eligibleSpaces s' lot).length = k ∧
      findLot s' lot = some L := by
  have hne : eligibleSpaces s lot ≠ [] := by
    intro hnil
    rw [hnil] at hlen
    simp at hlen
  obtain ⟨m, hm⟩ := minByNumber_isSome hne
  have hmel := mem_eligibleSpaces.mp (minByNumber_mem hm)
  have hpark := parkVehicle_eq hL hm p t
  have hid_pres : ∀ r : SpaceRow,
      (if r.id == m.id then { r with occupied := true, entryTime := some t } else r).id
        = r.id := by
    intro r
    by_cases h : (r.id == m.id) = true
    · rw [if_pos h]
    · rw [if_neg h]
  refine ⟨m.number, _, hpark, rfl, ?_, ?_, hL⟩
  · rw [List.pairwise_map]
    refine hids.imp ?_
    intro a b hab
    rw [hid_pres a, hid_pres b]
    exact hab
  · have hupd : ((s.spaces.map fun r =>
        if r.id == m.id then { r with occupied := true, entryTime := some t } else r).filter
          (fun sp => sp.lotId == lot && !sp.occupied && !sp.inMaintenance)).length + 1
        = (s.spaces.filter
            (fun sp => sp.lotId == lot && !sp.occupied && !sp.inMaintenance)).length :=
      filter_map_update_length
        (fun sp => sp.lotId == lot && !sp.occupied && !sp.inMaintenance)
        (fun r => { r with occupied := true, entryTime := some t })
        hids hmel.1
        (by simp [hmel.2.1, hmel.2.2.1, hmel.2.2.2])
        (by simp)
    have hlen' : (s.spaces.filter
        (fun sp => sp.lotId == lot && !sp.occupied && !sp.inMaintenance)).length = k + 1 :=
      hlen
    show ((s.spaces.map fun r =>
        if r.id == m.id then { r with occupied := true, entryTime := some t } else r).filter
          (fun sp => sp.lotId == lot && !sp.occupied && !sp.inMaintenance)).length = k
    omega

/-- C1: allocation is linearized by the process-wide mutex, so two
`ParkVehicle` calls against the same lot execute in some sequential
order; in that order they never claim the same space number, and when
exactly one eligible space remains the first call succeeds and the
second fails with the no-available-space error (the order of the two
callers is arbitrary since the plates and clock readings are
universally quantified). -/
theorem allocate_linearized_no_double_claim (s : DB) (lot : Nat)
    (p1 p2 : String) (t1 t2 : Int) (hwf : s.WF) :
    (∀ n1 s1 n2 s2, parkVehicle s lot p1 t1 = (.ok n1, s1) →
        parkVehicle s1 lot p2 t2 = (.ok n2, s2) → n1 ≠ n2) ∧
    ((eligibleSpaces s lot).length = 1 →
      ∃ n1 s1, parkVehicle s lot p1 t1 = (.ok n1, s1) ∧
        parkVehicle s1 lot p2 t2 = (.error "nearest available slot not found", s1)) := by
  obtain ⟨hids, hnums, hlt, hlotids, hlotlt, hfk⟩ := hwf
  have hsymm : Symmetric fun a b : SpaceRow => a.lotId = b.lotId → a.number ≠ b.number :=
    fun a b h hl => (h hl.symm).symm
  constructor
  · rintro n1 s1 n2 s2 h1 h2 hEq
    obtain ⟨m1, hmin1, hn1, hs1⟩ := parkVehicle_ok h1
    obtain ⟨m2, hmin2, hn2, hs2⟩ := parkVehicle_ok h2
    obtain ⟨hm1mem, hm1lot, -, -⟩ := mem_eligibleSpaces.mp (minByNumber_mem hmin1)
    obtain ⟨hm2mem, hm2lot, hm2occ, -⟩ := mem_eligibleSpaces.mp (minByNumber_mem hmin2)
    rw [hs1] at hm2mem
    obtain ⟨r, hr, hfr⟩ := List.mem_map.mp hm2mem
    by_cases hrid : (r.id == m1.id) = true
    · rw [if_pos hrid] at hfr
      rw [← hfr] at hm2occ
      simp at hm2occ
    · rw [if_neg hrid] at hfr
      subst hfr
      have hne : m1 ≠ r := by
        intro hcontra
        apply hrid
        rw [hcontra]
        simp
      exact (List.Pairwise.forall hsymm hnums hm1mem hr hne (hm1lot.trans hm2lot.symm))
        (hn1 ▸ hn2 ▸ hEq)
  · intro hlen
    obtain ⟨m, hmeq⟩ := List.length_eq_one.mp hlen
    have hmmem : m ∈ eligibleSpaces s lot := by
      rw [hmeq]
      exact List.mem_cons_self m []
    obtain ⟨hmem, hmlot, hmocc, hmmaint⟩ := mem_eligibleSpaces.mp hmmem
    obtain ⟨l, hl, hlid⟩ := hfk m hmem
    obtain ⟨L, hL⟩ := findLot_some_of_mem hl (hlid.symm.trans hmlot)
    obtain ⟨n1, s1, hpark, hlots1, hids1, hlen1, hL1⟩ :=
      park_step hids hL (k := 0) (by omega) p1 t1
    refine ⟨n1, s1, hpark, ?_⟩
    have hminnone : minByNumber (eligibleSpaces s1 lot) = none := by
      rw [List.length_eq_zero.mp hlen1]
      rfl
    exact parkVehicle_noSpace p2 t2 hL1 hminnone

theorem allocate_linearized_no_double_claim_witness :
    db6.WF ∧
    ((∀ n1 s1 n2 s2, parkVehicle db6 1 "A" 3 = (.ok n1, s1) →
        parkVehicle s1 1 "B" 4 = (.ok n2, s2) → n1 ≠ n2) ∧
     ((eligibleSpaces db6 1).length = 1 →
       ∃ n1 s1, parkVehicle db6 1 "A" 3 = (.ok n1, s1) ∧
         parkVehicle s1 1 "B" 4 = (.error "nearest available slot not found", s1))) :=
  ⟨by decide, allocate_linearized_no_double_claim db6 1 "A" "B" 3 4 (by decide)⟩

/-! ### C4 -/

/-- Draining a lot: with `k` eligible spaces, `k` consecutive
`ParkVehicle` calls all succeed and leave no eligible space. -/
theorem park_drain {lot : Nat} {L : LotRow} (pl : Nat → String) (tm : Nat → Int) :
    ∀ (k : Nat) (s : DB), (s.spaces.Pairwise fun a b => a.id ≠ b.id) →
      findLot s lot = some L → (eligibleSpaces s lot).length = k →
      ∃ s'', parkSeq lot pl tm k s = some s'' ∧
        findLot s'' lot = some L ∧ eligibleSpaces s'' lot = [] := by
  intro k
  induction k with
  | zero =>
    intro s _ hL hlen
    exact ⟨s, rfl, hL, List.length_eq_zero.mp hlen⟩
  | succ k ih =>
    intro s hids hL hlen
    obtain ⟨n, s', hpark, -, hids', hlen', hL'⟩ := park_step hids hL hlen (pl k) (tm k)
    obtain ⟨s'', hseq, hfin⟩ := ih s' hids' hL' hlen'
    refine ⟨s'', ?_, hfin⟩
    show (match parkVehicle s lot (pl k) (tm k) with
      | (Except.ok _, s') => parkSeq lot pl tm k s'
      | (Except.error _, _) => none) = some s''
    rw [hpark]
    exact hseq

/-- The state after `CreateParkingLot n`: the new lot exists, space keys
are still pairwise distinct, and the new lot has exactly `n` eligible
spaces (its fresh rows, all free and not in maintenance). -/
theorem createParkingLot_fresh (s : DB) (hwf : s.WF) (n : Nat) :
    ((createParkingLot s (n : Int)).2.spaces.Pairwise fun a b => a.id ≠ b.id) ∧
    findLot (createParkingLot s (n : Int)).2 s.nextLotId = some ⟨s.nextLotId, (n : Int)⟩ ∧
    (eligibleSpaces (createParkingLot s (n : Int)).2 s.nextLotId).length = n := by
  obtain ⟨hids, -, hlt, -, hlotlt, hfk⟩ := hwf
  refine ⟨?_, ?_, ?_⟩
  · show ((s.spaces ++ (List.range (n : Int).toNat).map fun i =>
        (⟨s.nextSpaceId + i, s.nextLotId, i + 1, false, false, none⟩ : SpaceRow)).Pairwise
        fun a b => a.id ≠ b.id)
    rw [List.pairwise_append]
    refine ⟨hids, ?_, ?_⟩
    · rw [List.pairwise_map]
      refine (List.pairwise_lt_range _).imp ?_
      intro a b hab
      simp only [ne_eq]
      omega
    · intro a ha b hb
      obtain ⟨i, hi, rfl⟩ := List.mem_map.mp hb
      have := hlt a ha
      simp only [ne_eq]
      omega
  · show (s.lots ++ ([⟨s.nextLotId, (n : Int)⟩] : List LotRow)).find?
        (fun l : LotRow => l.id == s.nextLotId)
        = some (⟨s.nextLotId, (n : Int)⟩ : LotRow)
    rw [List.find?_append]
    have h1 : s.lots.find? (fun l : LotRow => l.id == s.nextLotId) = none := by
      rw [List.find?_eq_none]
      intro l hl
      have := hlotlt l hl
      simp only [beq_iff_eq]
      omega
    rw [h1]
    simp
  · show ((s.spaces ++ (List.range (n : Int).toNat).map fun i =>
        (⟨s.nextSpaceId + i, s.nextLotId, i + 1, false, false, none⟩ : SpaceRow)).filter
          (fun sp => sp.lotId == s.nextLotId && !sp.occupied && !sp.inMaintenance)).length = n
    rw [List.filter_append]
    have hold : s.spaces.filter
        (fun sp => sp.lotId == s.nextLotId && !sp.occupied && !sp.inMaintenance) = [] := by
      rw [List.filter_eq_nil_iff]
      intro sp hsp
      obtain ⟨l, hl, hlid⟩ := hfk sp hsp
      have hlotlt' := hlotlt l hl
      simp only [Bool.and_eq_true, beq_iff_eq, not_and]
      intro h1
      omega
    have hnew : ((List.range (n : Int).toNat).map fun i =>
        (⟨s.nextSpaceId + i, s.nextLotId, i + 1, false, false, none⟩ : SpaceRow)).filter
          (fun sp => sp.lotId == s.nextLotId && !sp.occupied && !sp.inMaintenance)
        = (List.range (n : Int).toNat).map fun i =>
            (⟨s.nextSpaceId + i, s.nextLotId, i + 1, false, false, none⟩ : SpaceRow) := by
      rw [List.filter_eq_self]
      intro a ha
      obtain ⟨i, hi, rfl⟩ := List.mem_map.mp ha
      simp
    rw [hold, hnew]
    simp

/-- C4: starting from a lot freshly created with `n` spaces (all free,
none in maintenance), `n` consecutive `ParkVehicle` calls all succeed
and the `(n+1)`-th fails with the no-available-space error; and
`ParkVehicle` fails with the lot-not-found error whenever the requested
lot identifier does not exist. -/
theorem fresh_lot_exactly_n_allocations (s : DB) (hwf : s.WF) (n : Nat)
    (pl : Nat → String) (tm : Nat → Int) (p : String) (t : Int)
    (badLot : Nat) (hbad : ∀ l ∈ s.lots, l.id ≠ badLot) :
    (∃ s'', parkSeq s.nextLotId pl tm n (createParkingLot s (n : Int)).2 = some s'' ∧
        parkVehicle s'' s.nextLotId p t =
          (.error "nearest available slot not found", s'')) ∧
    parkVehicle s badLot p t = (.error "parking lot not found", s) := by
  obtain ⟨hpw, hfind, hlen⟩ := createParkingLot_fresh s hwf n
  obtain ⟨s'', hseq, hL'', helig⟩ := park_drain pl tm n _ hpw hfind hlen
  refine ⟨⟨s'', hseq, ?_⟩, parkVehicle_noLot p t (findLot_eq_none hbad)⟩
  refine parkVehicle_noSpace p t hL'' ?_
  rw [helig]
  rfl

theorem fresh_lot_exactly_n_allocations_witness :
    dbEmpty.WF ∧ (∀ l ∈ dbEmpty.lots, l.id ≠ 7) ∧
    ((∃ s'', parkSeq dbEmpty.nextLotId (fun _ => "P") (fun _ => 0) 2
          (createParkingLot dbEmpty ((2 : Nat) : Int)).2 = some s'' ∧
        parkVehicle s'' dbEmpty.nextLotId "Q" 9 =
          (.error "nearest available slot not found", s'')) ∧
     parkVehicle dbEmpty 7 "Q" 9 = (.error "parking lot not found", dbEmpty)) :=
  ⟨by decide, by decide,
    fresh_lot_exactly_n_allocations dbEmpty (by decide) 2 (fun _ => "P") (fun _ => 0)
      "Q" 9 7 (by decide)⟩

/-! ### C9 -/

theorem mem_insertDay {d x : Int} {l : List Int} :
    x ∈ insertDay d l ↔ x = d ∨ x ∈ l := by
  induction l with
  | nil => simp [insertDay]
  | cons y ys ih =>
    rw [insertDay]
    by_cases h1 : d < y
    · rw [if_pos h1]
      simp [List.mem_cons]
    · rw [if_neg h1]
      by_cases h2 : (d == y) = true
      · rw [if_pos h2]
        have hdy : d = y := by simpa using h2
        subst hdy
        simp [List.mem_cons]
      · rw [if_neg h2]
        simp only [List.mem_cons, ih]
        tauto

theorem pairwise_insertDay {d : Int} {l : List Int}
    (h : l.Pairwise (· < ·)) : (insertDay d l).Pairwise (· < ·) := by
  induction l with
  | nil => simp [insertDay]
  | cons y ys ih =>
    obtain ⟨hy, hys⟩ := List.pairwise_cons.mp h
    rw [insertDay]
    by_cases h1 : d < y
    · rw [if_pos h1]
      rw [List.pairwise_cons]
      refine ⟨?_, List.pairwise_cons.mpr ⟨hy, hys⟩⟩
      intro b hb
      rcases List.mem_cons.mp hb with rfl | hb
      · exact h1
      · exact lt_trans h1 (hy b hb)
    · rw [if_neg h1]
      by_cases h2 : (d == y) = true
      · rw [if_pos h2]
        exact List.pairwise_cons.mpr ⟨hy, hys⟩
      · rw [if_neg h2]
        rw [List.pairwise_cons]
        have hyd : y < d := by
          have hne : d ≠ y := by simpa using h2
          omega
        refine ⟨?_, ih hys⟩
        intro b hb
        rcases mem_insertDay.mp hb with rfl | hb
        · exact hyd
        · exact hy b hb

theorem pairwise_groupDays (l : List Int) : (groupDays l).Pairwise (· < ·) := by
  induction l with
  | nil => simp [groupDays]
  | cons x xs ih => exact pairwise_insertDay ih

theorem mem_groupDays {x : Int} {l : List Int} : x ∈ groupDays l ↔ x ∈ l := by
  induction l with
  | nil => simp [groupDays]
  | cons y ys ih =>
    show x ∈ insertDay y (groupDays ys) ↔ _
    rw [mem_insertDay, ih]
    simp [List.mem_cons]

/-- C9: for an existing lot, `GetReports` returns one entry per
calendar exit-date among the lot's transactions, in strictly ascending
date order; each entry counts that date's transactions, sums their raw
fractional hours `(exit - entry) / 3600` (not rounded up), and sums
their recorded fees; a lot with no transactions yields `ok []`, not an
error. -/
theorem reports_group_by_exit_day (s : DB) (lot : Nat)
    (hlot : ∃ l ∈ s.lots, l.id = lot) :
    ∃ stats, getReports s lot = .ok stats ∧
      (stats.map DailyStats.day).Pairwise (· < ·) ∧
      (∀ d : Int, d ∈ stats.map DailyStats.day ↔
        ∃ tx ∈ s.txs, tx.lotId = lot ∧ txDay tx = d) ∧
      (∀ e ∈ stats,
        e.totalVehicles =
          (s.txs.filter fun tx => tx.lotId == lot && txDay tx == e.day).length ∧
        e.totalParkingTime =
          ((s.txs.filter fun tx => tx.lotId == lot && txDay tx == e.day).map
            fun tx => ((tx.exitTime - tx.entryTime : Int) : ℚ) / 3600).sum ∧
        e.totalFee =
          ((s.txs.filter fun tx => tx.lotId == lot && txDay tx == e.day).map
            TxRow.fee).sum) ∧
      ((∀ tx ∈ s.txs, tx.lotId ≠ lot) → getReports s lot = .ok []) := by
  obtain ⟨l, hl, hid⟩ := hlot
  obtain ⟨L, hL⟩ := findLot_some_of_mem hl hid
  have hrep : getReports s lot =
      .ok ((groupDays ((s.txs.filter fun tx => tx.lotId == lot).map txDay)).map
        (statsForDay (s.txs.filter fun tx => tx.lotId == lot))) := by
    unfold getReports
    rw [hL]
  have hdays : ((groupDays ((s.txs.filter fun tx => tx.lotId == lot).map txDay)).map
      (statsForDay (s.txs.filter fun tx => tx.lotId == lot))).map DailyStats.day
      = groupDays ((s.txs.filter fun tx => tx.lotId == lot).map txDay) := by
    rw [List.map_map]
    exact map_id_of_eq fun a _ => rfl
  have hfilter2 : ∀ d : Int,
      ((s.txs.filter fun tx => tx.lotId == lot).filter fun tx => txDay tx == d)
        = s.txs.filter fun tx => tx.lotId == lot && txDay tx == d := by
    intro d
    rw [List.filter_filter]
    apply List.filter_congr
    intro tx _
    rw [Bool.and_comm]
  refine ⟨_, hrep, ?_, ?_, ?_, ?_⟩
  · rw [hdays]
    exact pairwise_groupDays _
  · intro d
    rw [hdays, mem_groupDays]
    simp only [List.mem_map, List.mem_filter, Bool.and_eq_true, beq_iff_eq]
    constructor
    · rintro ⟨tx, ⟨htx, hlot'⟩, hday⟩
      exact ⟨tx, htx, hlot', hday⟩
    · rintro ⟨tx, htx, hlot', hday⟩
      exact ⟨tx, ⟨htx, hlot'⟩, hday⟩
  · intro e he
    obtain ⟨d, hd, rfl⟩ := List.mem_map.mp he
    have hday : (statsForDay (s.txs.filter fun tx => tx.lotId == lot) d).day = d := rfl
    rw [hday]
    refine ⟨?_, ?_, ?_⟩
    · show ((s.txs.filter fun tx => tx.lotId == lot).filter
          fun tx => txDay tx == d).length = _
      rw [hfilter2]
    · show ((((s.txs.filter fun tx => tx.lotId == lot).filter
          fun tx => txDay tx == d)).map
            fun tx => ((tx.exitTime - tx.entryTime : Int) : ℚ) / 3600).sum = _
      rw [hfilter2]
    · show ((((s.txs.filter fun tx => tx.lotId == lot).filter
          fun tx => txDay tx == d)).map TxRow.fee).sum = _
      rw [hfilter2]
  · intro hnone
    have hnil : (s.txs.filter fun tx => tx.lotId == lot) = [] := by
      rw [List.filter_eq_nil_iff]
      intro tx htx
      simp [hnone tx htx]
    rw [hrep, hnil]
    rfl

/-- Two transactions on different calendar days, plus one sharing the
first day. -/
def dbR : DB :=
  ⟨[⟨1, 5⟩], [], [], [⟨1, "A", 10, 0, 3600⟩, ⟨1, "B", 20, 90000, 100000⟩,
    ⟨1, "C", 10, 40, 50⟩], 2, 1, 1⟩

theorem reports_group_by_exit_day_witness :
    (∃ l ∈ dbR.lots, l.id = 1) ∧
    ∃ stats, getReports dbR 1 = .ok stats ∧
      (stats.map DailyStats.day).Pairwise (· < ·) ∧
      (∀ d : Int, d ∈ stats.map DailyStats.day ↔
        ∃ tx ∈ dbR.txs, tx.lotId = 1 ∧ txDay tx = d) ∧
      (∀ e ∈ stats,
        e.totalVehicles =
          (dbR.txs.filter fun tx => tx.lotId == 1 && txDay tx == e.day).length ∧
        e.totalParkingTime =
          ((dbR.txs.filter fun tx => tx.lotId == 1 && txDay tx == e.day).map
            fun tx => ((tx.exitTime - tx.entryTime : Int) : ℚ) / 3600).sum ∧
        e.totalFee =
          ((dbR.txs.filter fun tx => tx.lotId == 1 && txDay tx == e.day).map
            TxRow.fee).sum) ∧
      ((∀ tx ∈ dbR.txs, tx.lotId ≠ 1) → getReports dbR 1 = .ok []) :=
  ⟨by decide, reports_group_by_exit_day dbR 1 (by decide)⟩

end ParkingLot
